import Mathlib

/-!
Verification of the swim-meet export/report repository.

The Python sources are shallowly embedded: machine integers are `Int`
(Python ints are unbounded, `//` is floor division, `Int` division `/` = `Int.ediv`
which agrees with it for a positive divisor, likewise `%` = `Int.emod`), `None`-able values are `Option`,
and code that can raise returns `Option` (with `none` modelling the
raised exception).  Python `f"{x:.2f}"` applied to `c / 100` for an
integer `0 ≤ c < 6000` prints the exact decimal expansion of `c / 100`
(the nearest binary double to `c/100` is far closer to `c/100` than to
any other multiple of `0.01`, so rounding to two places recovers it),
so the formatting is embedded as exact decimal digit strings.
-/

namespace Swimtopia

/-- `Char` for a decimal digit value `0..9`. -/
def digitChar (d : Nat) : Char := Char.ofNat (48 + d)

/-- Exact model of the fractional part `f"{...:.2f}"` prints for a
hundredths value `0 ≤ r < 100`: two digits, zero padded. -/
def frac2 (r : Int) : String :=
  String.mk [digitChar ((r / 10).toNat), digitChar ((r % 10).toNat)]

/-- Decimal rendering of an integer `0 ≤ q < 100` (no padding), as
Python prints the integral part of a float below 100. -/
def intPart2 (q : Int) : String :=
  if q < 10 then String.mk [digitChar q.toNat]
  else String.mk [digitChar ((q / 10).toNat), digitChar ((q % 10).toNat)]

/-- Model of Python `f"{seconds:.2f}"` where `seconds = c / 100` for a
centisecond count `0 ≤ c < 6000`. -/
def fmtSeconds (c : Int) : String :=
  intPart2 (c / 100) ++ "." ++ frac2 (c % 100)

/-- Model of Python `f"{seconds:05.2f}"`: as `fmtSeconds`, zero padded
on the left to width 5 (one extra `0` exactly when `seconds < 10`). -/
def fmtSeconds05 (c : Int) : String :=
  (if c < 1000 then "0" else "") ++ fmtSeconds c

/-- Rendering of the (positive) minutes count, Python `f"{minutes}"`. -/
def minutesStr (m : Int) : String := m.toNat.repr

/-- `format_time` from `generate_scoreboard.py` (lines 38-46):
`if not time_int: return "NT"`, `minutes = time_int // 6000`,
`seconds = (time_int % 6000) / 100`, rendered `f"{minutes}:{seconds:05.2f}"`
when `minutes > 0` else `f"{seconds:.2f}"`.  The argument is `none` for
Python `None`/absent; `not time_int` is true exactly for `none` and `some 0`. -/
def format_time : Option Int → String
  | none => "NT"
  | some t =>
    if t = 0 then "NT"
    else
      let minutes := t / 6000
      let seconds := t % 6000
      if minutes > 0 then minutesStr minutes ++ ":" ++ fmtSeconds05 seconds
      else fmtSeconds seconds

/-- `format_time` from `scoreboard_server.py` (lines 261-269); the Python
body is textually identical to the one in `generate_scoreboard.py`. -/
def format_time_server : Option Int → String
  | none => "NT"
  | some t =>
    if t = 0 then "NT"
    else
      let minutes := t / 6000
      let seconds := t % 6000
      if minutes > 0 then minutesStr minutes ++ ":" ++ fmtSeconds05 seconds
      else fmtSeconds seconds

/-- The inline seed-time formatting in `show_heat_assignments.py`
(lines 109-117): `if seed_time:` compute `minutes`/`seconds` and render,
`else: time_str = "NT"`. -/
def seed_time_str : Option Int → String
  | none => "NT"
  | some t =>
    if t = 0 then "NT"
    else
      let minutes := t / 6000
      let seconds := t % 6000
      if minutes > 0 then minutesStr minutes ++ ":" ++ fmtSeconds05 seconds
      else fmtSeconds seconds

/-! ### Export task polling (`swimtopia_export.py` lines 140-195)

`poll_export_status` in `swimtopia_export.py` and the one in
`swimtopia_export_enhanced.py` (lines 189-254) have identical control
flow: `for attempt in range(1, max_attempts + 1)`: GET the status URL;
on HTTP 200 read `data.attributes.currentState` and return the task
data on `completed`, return `None` on `failed`, otherwise fall through;
on HTTP 304 fall through (still in progress); on any other status
return `None`; after the loop return `None` (timeout).  The enhanced
version only adds printing and an exception handler that also returns
`None`.  The server is modelled as the function giving the response to
the n-th fetch (0-indexed); the embedding also counts the fetches
performed, which the Python loop makes observable through the requests
it issues. -/

/-- The attributes of an export-task resource that the poll loop reads. -/
structure TaskAttrs where
  currentState : Option String
  exportHref : Option String
  exportFilename : Option String
deriving DecidableEq, Repr

/-- `data.get('data', {})` of a poll response body. -/
structure TaskData where
  attributes : TaskAttrs
deriving DecidableEq, Repr

/-- One HTTP response to a status fetch: its status code, and the task
data of its JSON body (only read when the status code is 200). -/
structure PollResponse where
  statusCode : Nat
  taskData : TaskData
deriving DecidableEq, Repr

/-- The polling loop of `poll_export_status`: `i` fetches already made,
`attemptsLeft` loop iterations remaining.  Returns the Python return
value (`some` task data on completion, `none` on failure or timeout)
paired with the total number of fetches performed. -/
def pollLoop (server : Nat → PollResponse) : Nat → Nat → Option TaskData × Nat
  | i, 0 => (none, i)
  | i, attemptsLeft + 1 =>
    let r := server i
    if r.statusCode = 200 then
      if r.taskData.attributes.currentState = some "completed" then
        (some r.taskData, i + 1)
      else if r.taskData.attributes.currentState = some "failed" then
        (none, i + 1)
      else pollLoop server (i + 1) attemptsLeft
    else if r.statusCode = 304 then pollLoop server (i + 1) attemptsLeft
    else (none, i + 1)

/-- `poll_export_status(meet_id, task_id, max_attempts, poll_interval)`
run against a server whose n-th response is `server n`. -/
def poll_export_status (server : Nat → PollResponse) (maxAttempts : Nat) :
    Option TaskData × Nat :=
  pollLoop server 0 maxAttempts

/-- An HTTP 200 response whose task is in an in-progress state. -/
def inProgressResp : PollResponse :=
  ⟨200, ⟨⟨some "processing", none, none⟩⟩⟩

/-- An HTTP 200 response whose task has completed, carrying the export
href and filename. -/
def completedResp : PollResponse :=
  ⟨200, ⟨⟨some "completed", some "https://files.example/export.hy3",
          some "export.hy3"⟩⟩⟩

/-- An HTTP 200 response whose task reports the `failed` state. -/
def failedResp : PollResponse :=
  ⟨200, ⟨⟨some "failed", none, none⟩⟩⟩

/-- An HTTP 500 response (unexpected status, transport error path). -/
def transportErrResp : PollResponse :=
  ⟨500, ⟨⟨none, none, none⟩⟩⟩

/-- Server answering in-progress twice, then completed. -/
def serverCompletes3rd : Nat → PollResponse :=
  fun n => if n < 2 then inProgressResp else completedResp

/-- Server answering in-progress forever. -/
def serverAlwaysInProgress : Nat → PollResponse := fun _ => inProgressResp

/-- Server reporting the `failed` state on the first fetch. -/
def serverFailsImmediately : Nat → PollResponse := fun _ => failedResp

/-- Server answering HTTP 500 on the first fetch. -/
def serverTransportError : Nat → PollResponse := fun _ => transportErrResp

/-! ### Event loading and sorting (`generate_scoreboard.py` lines 95-108,
`scoreboard_server.py` lines 124-134)

After reading the cache files, `load_all_events` deduplicates the
accumulated event resources by id (first seen wins:
`if event_id not in events_by_id`) and sorts them with
`key=lambda e: int(e.get("attributes", {}).get("eventNumber", "999"))`.
A missing `eventNumber` therefore defaults to the string `"999"`;
`int(...)` of a non-numeric string raises `ValueError`, modelled by
returning `none`.  CPython's `list.sort(key=...)` evaluates the key of
every element before comparing, so a single bad key aborts the whole
call.  `load_all_events_from_cache` in `scoreboard_server.py` has the
same dedup/sort code. -/

/-- A JSON attribute value as far as the event-sorting code can see it:
a string or an integer. -/
inductive AttrVal where
  | s (v : String)
  | i (v : Int)
deriving DecidableEq, Repr

/-- An event resource: its `id` and its `attributes` mapping. -/
structure EventRes where
  id : String
  attributes : List (String × AttrVal)
deriving DecidableEq, Repr

/-- Numeric value of a list of decimal digit characters. -/
def digitsToNat (ds : List Char) : Nat :=
  ds.foldl (fun a c => 10 * a + (c.toNat - 48)) 0

/-- Python `int(s)` on a string: optional sign followed by at least one
decimal digit parses; anything else raises `ValueError` (`none`).
(Python also strips surrounding whitespace and allows `_` separators;
the sources only ever feed plain digit strings or non-numeric words.) -/
def pyStrToInt (s : String) : Option Int :=
  match s.data with
  | [] => none
  | '-' :: ds =>
    if ds ≠ [] ∧ ds.all Char.isDigit then some (-(digitsToNat ds : Int)) else none
  | '+' :: ds =>
    if ds ≠ [] ∧ ds.all Char.isDigit then some ((digitsToNat ds : Int)) else none
  | ds => if ds ≠ [] ∧ ds.all Char.isDigit then some ((digitsToNat ds : Int)) else none

/-- Python `int(v)` on an attribute value: ints pass through, strings
are parsed. -/
def pyIntOfAttr : AttrVal → Option Int
  | .i n => some n
  | .s v => pyStrToInt v

/-- The sort key of `load_all_events`:
`int(e.get("attributes", {}).get("eventNumber", "999"))`, `none` when
`int` raises. -/
def eventKey (e : EventRes) : Option Int :=
  pyIntOfAttr (((e.attributes).lookup "eventNumber").getD (.s "999"))

/-- Defaulted key, used only after all keys were checked to parse. -/
def eventKeyD (e : EventRes) : Int := (eventKey e).getD 0

/-- The comparison the sort uses on parsed keys. -/
def eventLE (a b : EventRes) : Prop := eventKeyD a ≤ eventKeyD b

instance : DecidableRel eventLE := fun a b => by
  unfold eventLE; infer_instance

instance : IsTotal EventRes eventLE :=
  ⟨fun a b => le_total (eventKeyD a) (eventKeyD b)⟩

instance : IsTrans EventRes eventLE :=
  ⟨fun _ _ _ h h' => le_trans h h'⟩

/-- First-seen deduplication by id, the
`if event_id not in events_by_id: events_by_id[event_id] = event` loop
(`seen` holds the ids already inserted). -/
def dedupById (seen : List String) : List EventRes → List EventRes
  | [] => []
  | e :: es =>
    if e.id ∈ seen then dedupById seen es
    else e :: dedupById (e.id :: seen) es

/-- The pure core of `load_all_events`: dedup by id (first seen wins),
then sort ascending by `eventKey`; `none` models the `ValueError`
raised when some event's `eventNumber` is a non-numeric string.
Python's sort is stable and so is `List.insertionSort` here. -/
def load_all_events (evs : List EventRes) : Option (List EventRes) :=
  let uniq := dedupById [] evs
  if uniq.all fun e => (eventKey e).isSome then
    some (List.insertionSort eventLE uniq)
  else none

/-- Concrete events used to test the sorting claim. -/
def evN3 : EventRes := ⟨"E3", [("eventNumber", .i 3)]⟩

/-- Event with `eventNumber` 1. -/
def evN1 : EventRes := ⟨"E1", [("eventNumber", .i 1)]⟩

/-- Event with `eventNumber` 2. -/
def evN2 : EventRes := ⟨"E2", [("eventNumber", .i 2)]⟩

/-- Event whose `eventNumber` is the non-numeric string `"bad"`. -/
def evBad : EventRes := ⟨"EBAD", [("eventNumber", .s "bad")]⟩

/-- Event with no `eventNumber` attribute at all. -/
def evMissing : EventRes := ⟨"EM", []⟩

/-! ### Athlete display-name resolution (`generate_scoreboard.py` lines
557-565, `show_heat_assignments.py` lines 145-156)

Both consumers resolve an individual record's athlete relationship as
`athletes.get(athlete_id, {}).get("displayName", default)`.  The
scoreboard's default is `"Unknown"` and its no-relationship text is
`"No athlete"`; the heat-assignment report's default is
`f"Athlete {athlete_id[:8]}"` and its no-relationship text is
`"No athlete assigned"`. -/

/-- One entry of the athlete index built by `load_athletes` (its
`displayName` key is always set). -/
structure AthleteInfo where
  firstName : Option String
  lastName : Option String
  displayName : String
deriving DecidableEq, Repr

/-- `generate_scoreboard.py` lines 557-565: athlete display for an
individual record, given the athlete relationship's `data` id. -/
def athleteName_scoreboard (athletes : List (String × AthleteInfo))
    (ref : Option String) : String :=
  match ref with
  | none => "No athlete"
  | some aid =>
    match athletes.lookup aid with
    | some info => info.displayName
    | none => "Unknown"

/-- `show_heat_assignments.py` lines 145-156: athlete display in the
heat-assignment report. -/
def athleteName_report (athletes : List (String × AthleteInfo))
    (ref : Option String) : String :=
  match ref with
  | none => "No athlete assigned"
  | some aid =>
    match athletes.lookup aid with
    | some info => info.displayName
    | none => "Athlete " ++ aid.take 8

/-! ### Relay swimmer ordering (`generate_scoreboard.py` lines 537-556,
`show_heat_assignments.py` lines 120-143)

The scoreboard generator iterates
`sorted(relay_pos_data, key=lambda x: relay_positions.get(x.get("id"), {}).get("attributes", {}).get("relayPosition", 99))`
and appends a swimmer entry for every reference it can resolve that has
an athlete.  The heat-assignment report iterates `relay_pos_data` in
document order with no sort. -/

/-- A relay-position record: its `relayPosition` attribute and its
athlete relationship's `data` id. -/
structure RelayPos where
  relayPosition : Option Int
  athleteRef : Option String
deriving DecidableEq, Repr

/-- The scoreboard's relay sort key for one reference id:
`relay_positions.get(id, {}).get("attributes", {}).get("relayPosition", 99)`. -/
def relayKey (idx : List (String × RelayPos)) (refId : String) : Int :=
  match idx.lookup refId with
  | some p => p.relayPosition.getD 99
  | none => 99

/-- Comparison by `relayKey` for a fixed index. -/
def relayRefLE (idx : List (String × RelayPos)) (a b : String) : Prop :=
  relayKey idx a ≤ relayKey idx b

instance (idx : List (String × RelayPos)) : DecidableRel (relayRefLE idx) :=
  fun a b => by unfold relayRefLE; infer_instance

instance (idx : List (String × RelayPos)) : IsTotal String (relayRefLE idx) :=
  ⟨fun a b => le_total (relayKey idx a) (relayKey idx b)⟩

instance (idx : List (String × RelayPos)) : IsTrans String (relayRefLE idx) :=
  ⟨fun _ _ _ h h' => le_trans h h'⟩

/-- The order in which the scoreboard generator walks the relay
position references. -/
def gs_sorted_refs (idx : List (String × RelayPos)) (refs : List String) :
    List String :=
  List.insertionSort (relayRefLE idx) refs

/-- The `relayPosition` values of the swimmer entries the scoreboard
generator emits for one relay record: walk the sorted references, keep
those that resolve in the index and carry an athlete. -/
def gs_swimmer_positions (idx : List (String × RelayPos))
    (refs : List String) : List (Option Int) :=
  (gs_sorted_refs idx refs).filterMap fun rid =>
    (idx.lookup rid).bind fun p =>
      if p.athleteRef.isSome then some p.relayPosition else none

/-- Same for the heat-assignment report, which walks the references in
input order. -/
def report_swimmer_positions (idx : List (String × RelayPos))
    (refs : List String) : List (Option Int) :=
  refs.filterMap fun rid =>
    (idx.lookup rid).bind fun p =>
      if p.athleteRef.isSome then some p.relayPosition else none

/-- Index holding three relay positions 3, 1, 2 (keyed `rp3`,`rp1`,`rp2`),
each with an athlete. -/
def relayIdx : List (String × RelayPos) :=
  [("rp3", ⟨some 3, some "a3"⟩), ("rp1", ⟨some 1, some "a1"⟩),
   ("rp2", ⟨some 2, some "a2"⟩)]

/-! ### Per-heat listing (`generate_scoreboard.py` lines 475-488,
`show_heat_assignments.py` lines 86-99)

Records are grouped into a dict keyed by
`record.get("attributes", {}).get("heatNumber")` (so records without a
`heatNumber` share the `None` bucket, insertion-ordered), then the code
iterates `sorted(records_by_heat.keys())` and lane-sorts each bucket
with `key=lambda r: r.get("attributes", {}).get("laneNumber", 0)`.
Python 3's `sorted` raises `TypeError` as soon as it compares `None`
with anything — which happens whenever the key list has two or more
elements and one of them is `None`; a singleton list needs no
comparison. -/

/-- The fields of an event record that the heat listing reads. -/
structure HeatRec where
  rid : String
  heatNumber : Option Int
  laneNumber : Option Int
deriving DecidableEq, Repr

/-- Add one record to the (insertion-ordered) heat-bucket list, the
body of the `records_by_heat` loop. -/
def insertGrp (gs : List (Option Int × List HeatRec)) (k : Option Int)
    (r : HeatRec) : List (Option Int × List HeatRec) :=
  match gs with
  | [] => [(k, [r])]
  | (k₀, rs₀) :: rest =>
    if k₀ = k then (k₀, rs₀ ++ [r]) :: rest
    else (k₀, rs₀) :: insertGrp rest k r

/-- `records_by_heat`: dict from `heatNumber` (possibly `None`) to the
records carrying it, in insertion order. -/
def groupByHeat (rs : List HeatRec) : List (Option Int × List HeatRec) :=
  rs.foldl (fun gs r => insertGrp gs r.heatNumber r) []

/-- Comparison on present heat keys (only used when every key is
`some`). -/
def heatKeyLE (a b : Option Int) : Prop := a.getD 0 ≤ b.getD 0

instance : DecidableRel heatKeyLE := fun a b => by
  unfold heatKeyLE; infer_instance

instance : IsTotal (Option Int) heatKeyLE :=
  ⟨fun a b => le_total (a.getD 0) (b.getD 0)⟩

instance : IsTrans (Option Int) heatKeyLE :=
  ⟨fun _ _ _ h h' => le_trans h h'⟩

/-- Python `sorted(...)` over the heat-key list: a list of at most one
key needs no comparison; otherwise any `None` key gets compared with
something and raises `TypeError` (`none`); otherwise sort the ints. -/
def pySortedHeatKeys (ks : List (Option Int)) : Option (List (Option Int)) :=
  if ks.length ≤ 1 then some ks
  else if ks.any Option.isNone then none
  else some (List.insertionSort heatKeyLE ks)

/-- Lane order within one heat: `laneNumber` defaulting to 0. -/
def laneLE (a b : HeatRec) : Prop := a.laneNumber.getD 0 ≤ b.laneNumber.getD 0

instance : DecidableRel laneLE := fun a b => by
  unfold laneLE; infer_instance

instance : IsTotal HeatRec laneLE :=
  ⟨fun a b => le_total (a.laneNumber.getD 0) (b.laneNumber.getD 0)⟩

instance : IsTrans HeatRec laneLE :=
  ⟨fun _ _ _ h h' => le_trans h h'⟩

/-- The per-heat listing both renderers produce: group by heat, sort
the heat keys Python-style (`none` = `TypeError`), lane-sort each
bucket. -/
def heat_listing (rs : List HeatRec) :
    Option (List (Option Int × List HeatRec)) :=
  let gs := groupByHeat rs
  match pySortedHeatKeys (gs.map Prod.fst) with
  | none => none
  | some ks =>
    some (ks.map fun k => (k, List.insertionSort laneLE ((gs.lookup k).getD [])))

/-! ### Type inference (`generate_api_docs.py` lines 13-42)

`infer_type` classifies a JSON value.  Strings are tested in order:
full match of `^\d{4}-\d{2}-\d{2}$` → `date`; prefix match of
`^\d{4}-\d{2}-\d{2}T\d{2}:\d{2}:\d{2}` → `datetime`; `http(s)://`
prefix → `url`; else `string`.  Non-empty lists take
`set(infer_type(item) for item in value[:3])` and produce `array<T>`
exactly when that set is a singleton. -/

/-- A Python value as `infer_type` can see it.  `pyFloat` stands for a
non-integral number (only its type matters to `infer_type`), `pyDict`
for any dict, `pyOther` for anything else. -/
inductive PyVal where
  | pyNone
  | pyBool (b : Bool)
  | pyInt (n : Int)
  | pyFloat
  | pyStr (s : String)
  | pyList (xs : List PyVal)
  | pyDict
  | pyOther
deriving Repr

/-- Python `str.startswith(p)`, as a character-list prefix test. -/
def strStartsWith (s p : String) : Bool := p.data.isPrefixOf s.data

/-- Full match of `^\d{4}-\d{2}-\d{2}$` (Python `\d` on the sources'
ASCII data is `Char.isDigit`). -/
def isDateStr (s : String) : Bool :=
  match s.data with
  | [a, b, c, d, e, f, g, h, i, j] =>
    a.isDigit && b.isDigit && c.isDigit && d.isDigit && e == '-' &&
    f.isDigit && g.isDigit && h == '-' && i.isDigit && j.isDigit
  | _ => false

/-- Prefix match of `^\d{4}-\d{2}-\d{2}T\d{2}:\d{2}:\d{2}` (19 pattern
characters; any suffix is ignored). -/
def isDatetimeStart (s : String) : Bool :=
  match s.data with
  | c1 :: c2 :: c3 :: c4 :: c5 :: c6 :: c7 :: c8 :: c9 :: c10 ::
    c11 :: c12 :: c13 :: c14 :: c15 :: c16 :: c17 :: c18 :: c19 :: _ =>
    c1.isDigit && c2.isDigit && c3.isDigit && c4.isDigit && c5 == '-' &&
    c6.isDigit && c7.isDigit && c8 == '-' && c9.isDigit && c10.isDigit &&
    c11 == 'T' && c12.isDigit && c13.isDigit && c14 == ':' &&
    c15.isDigit && c16.isDigit && c17 == ':' && c18.isDigit && c19.isDigit
  | _ => false

mutual

/-- `infer_type` from `generate_api_docs.py` lines 13-42. -/
def infer_type : PyVal → String
  | .pyNone => "null"
  | .pyBool _ => "boolean"
  | .pyInt _ => "integer"
  | .pyFloat => "number"
  | .pyStr s =>
    if isDateStr s then "date"
    else if isDatetimeStart s then "datetime"
    else if strStartsWith s "http://" || strStartsWith s "https://" then "url"
    else "string"
  | .pyList xs =>
    match xs with
    | [] => "array"
    | _ :: _ =>
      match (inferFirst 3 xs).dedup with
      | [t] => "array<" ++ t ++ ">"
      | _ => "array"
  | .pyDict => "object"
  | .pyOther => "unknown"

/-- The inferred types of the first `fuel` elements of a list
(`value[:3]` with `fuel = 3`). -/
def inferFirst : Nat → List PyVal → List String
  | 0, _ => []
  | _, [] => []
  | fuel + 1, x :: xs => infer_type x :: inferFirst fuel xs

end

/-- Record in heat 2, lane 3. -/
def hrA : HeatRec := ⟨"r1", some 2, some 3⟩

/-- Record in heat 1, lane 4. -/
def hrB : HeatRec := ⟨"r2", some 1, some 4⟩

/-- Record with no `heatNumber` attribute, lane 5. -/
def hrNoHeatA : HeatRec := ⟨"r3", none, some 5⟩

/-- Second record with no `heatNumber` attribute, lane 1. -/
def hrNoHeatB : HeatRec := ⟨"r4", none, some 1⟩

/-! ## Theorems -/

/-- C1: `poll_export_status` with `maxAttempts = 5`: in-progress,
in-progress, completed returns the task data (carrying `exportHref` and
`exportFilename`) after exactly 3 fetches; five in-progress responses
exhaust the attempts and return the failure value after exactly 5
fetches; a first response in the `failed` state returns the failure
value after exactly 1 fetch, with no further fetches performed. -/
theorem poll_state_machine_c1 :
    poll_export_status serverCompletes3rd 5 =
      (some ⟨⟨some "completed", some "https://files.example/export.hy3",
              some "export.hy3"⟩⟩, 3) ∧
    poll_export_status serverAlwaysInProgress 5 = (none, 5) ∧
    poll_export_status serverFailsImmediately 5 = (none, 1) := by
  refine ⟨?_, ?_, ?_⟩ <;> decide

/-- C4 counterexample: the three terminal failure outcomes of
`poll_export_status` — server-reported `failed` state, unexpected HTTP
status, and attempt exhaustion — all produce the very same return value
`None`, so they are not distinct return values and the caller cannot
tell them apart from the result alone. -/
theorem poll_failures_c4_counterexample :
    (poll_export_status serverFailsImmediately 5).1 =
      (poll_export_status serverTransportError 5).1 ∧
    (poll_export_status serverTransportError 5).1 =
      (poll_export_status serverAlwaysInProgress 5).1 ∧
    (poll_export_status serverFailsImmediately 5).1 = none := by
  refine ⟨?_, ?_, ?_⟩ <;> decide

/-- C4 amended: every terminal failure of `poll_export_status` returns
`None`; the result alone distinguishes success from failure but not the
three failure reasons from each other (those are only printed). -/
theorem poll_failures_c4_amended :
    (poll_export_status serverFailsImmediately 5).1 = none ∧
    (poll_export_status serverTransportError 5).1 = none ∧
    (poll_export_status serverAlwaysInProgress 5).1 = none ∧
    (poll_export_status serverCompletes3rd 5).1 ≠ none := by
  refine ⟨?_, ?_, ?_, ?_⟩ <;> decide

/-- C9: the three time-formatting implementations — `format_time` in
the scoreboard generator, `format_time` in the scoreboard server, and
the inline seed-time formatting of the heat-assignment report — agree
on every input. -/
theorem format_time_agree_c9 :
    ∀ t : Option Int,
      format_time t = format_time_server t ∧ format_time t = seed_time_str t := by
  intro t
  cases t <;> exact ⟨rfl, rfl⟩

/-- C5: `format_time` returns `"NT"` for 0 and for absent input,
`"30.00"` for 3000, `"1:05.32"` for 6532, `"10:53.21"` for 65321; and
for every positive `timeInt` it renders `minutes = timeInt div 6000`
and the remaining centiseconds as seconds with two decimals, the
seconds zero-padded to width 5 exactly when `minutes > 0`. -/
theorem format_time_values_c5 :
    format_time (some 0) = "NT" ∧ format_time none = "NT" ∧
    format_time (some 3000) = "30.00" ∧
    format_time (some 6532) = "1:05.32" ∧
    format_time (some 65321) = "10:53.21" ∧
    ∀ t : Int, 0 < t →
      format_time (some t) =
        if t / 6000 > 0 then
          minutesStr (t / 6000) ++ ":" ++ fmtSeconds05 (t % 6000)
        else fmtSeconds (t % 6000) := by
  refine ⟨by decide, rfl, by decide, by decide, by decide, ?_⟩
  intro t ht
  have h0 : ¬t = 0 := by omega
  simp only [format_time, if_neg h0]

/-- C5 witness: the general clause of `format_time_values_c5`
instantiated at `timeInt = 6532`. -/
theorem format_time_values_c5_witness :
    (0 : Int) < 6532 ∧
    format_time (some 6532) =
      if (6532 : Int) / 6000 > 0 then
        minutesStr ((6532 : Int) / 6000) ++ ":" ++
          fmtSeconds05 ((6532 : Int) % 6000)
      else fmtSeconds ((6532 : Int) % 6000) :=
  ⟨by decide, format_time_values_c5.2.2.2.2.2 6532 (by decide)⟩

/-- C3 counterexample: an individual record whose athlete relationship
points at an id absent from the athlete index is displayed as
`"Unknown"` by the scoreboard generator and as `"Athlete "` plus the
first 8 characters of the id by the heat-assignment report — not as
`"No athlete assigned"` (which both sources reserve for a null athlete
relationship). -/
theorem athlete_unresolved_c3_counterexample :
    athleteName_scoreboard [] (some "ghost-athlete") = "Unknown" ∧
    athleteName_report [] (some "ghost-athlete") = "Athlete ghost-at" ∧
    athleteName_scoreboard [] (some "ghost-athlete") ≠ "No athlete assigned" ∧
    athleteName_report [] (some "ghost-athlete") ≠ "No athlete assigned" := by
  refine ⟨?_, ?_, ?_, ?_⟩ <;> decide

/-- C3 amended: resolving an athlete id that is not in the index never
raises; it yields `"Unknown"` in the scoreboard generator and
`"Athlete "` plus the first 8 id characters in the heat-assignment
report, while a null athlete relationship yields `"No athlete"` and
`"No athlete assigned"` respectively. -/
theorem athlete_unresolved_c3_amended
    (athletes : List (String × AthleteInfo)) (aid : String)
    (h : athletes.lookup aid = none) :
    athleteName_scoreboard athletes (some aid) = "Unknown" ∧
    athleteName_report athletes (some aid) = "Athlete " ++ aid.take 8 ∧
    athleteName_scoreboard athletes none = "No athlete" ∧
    athleteName_report athletes none = "No athlete assigned" := by
  refine ⟨?_, ?_, rfl, rfl⟩ <;>
    simp [athleteName_scoreboard, athleteName_report, h]

/-- C3 witness: `athlete_unresolved_c3_amended` at the empty index and
the id `"ghost-athlete"`. -/
theorem athlete_unresolved_c3_witness :
    ([] : List (String × AthleteInfo)).lookup "ghost-athlete" = none ∧
    (athleteName_scoreboard [] (some "ghost-athlete") = "Unknown" ∧
     athleteName_report [] (some "ghost-athlete") =
       "Athlete " ++ "ghost-athlete".take 8 ∧
     athleteName_scoreboard [] none = "No athlete" ∧
     athleteName_report [] none = "No athlete assigned") :=
  ⟨rfl, athlete_unresolved_c3_amended [] "ghost-athlete" rfl⟩

/-- C7 counterexample: the heat-assignment report walks relay position
references in input-document order, so input positions 3, 1, 2 are
presented as 3, 1, 2 — not sorted ascending as the claim states for
every rendered view. -/
theorem relay_order_c7_counterexample :
    report_swimmer_positions relayIdx ["rp3", "rp1", "rp2"] =
      [some 3, some 1, some 2] ∧
    report_swimmer_positions relayIdx ["rp3", "rp1", "rp2"] ≠
      [some 1, some 2, some 3] := by
  refine ⟨?_, ?_⟩ <;> decide

/-- C7 amended: the scoreboard generator presents relay swimmers sorted
ascending by `relayPosition` (missing positions keyed 99) regardless of
input order — positions 3, 1, 2 come out 1, 2, 3 — while the
heat-assignment report keeps the input document order. -/
theorem relay_order_c7_amended :
    (∀ (idx : List (String × RelayPos)) (refs : List String),
        List.Sorted (relayRefLE idx) (gs_sorted_refs idx refs)) ∧
    gs_swimmer_positions relayIdx ["rp3", "rp1", "rp2"] =
      [some 1, some 2, some 3] ∧
    report_swimmer_positions relayIdx ["rp3", "rp1", "rp2"] =
      [some 3, some 1, some 2] := by
  refine ⟨fun idx refs => List.sorted_insertionSort _ _, ?_, ?_⟩ <;> decide

/-- The two-digit fractional rendering always has length 2. -/
theorem frac2_length (r : Int) : (frac2 r).length = 2 := rfl

/-- The integral-part rendering has length 1 or 2. -/
theorem intPart2_length (q : Int) :
    (intPart2 q).length = 1 ∨ (intPart2 q).length = 2 := by
  unfold intPart2
  split_ifs
  · exact Or.inl rfl
  · exact Or.inr rfl

/-- `fmtSeconds` renders 4 or 5 characters. -/
theorem fmtSeconds_length (c : Int) :
    (fmtSeconds c).length = 4 ∨ (fmtSeconds c).length = 5 := by
  have hdot : ("." : String).length = 1 := rfl
  have hf := frac2_length (c % 100)
  rcases intPart2_length (c / 100) with h | h
  · left
    simp [fmtSeconds, String.length_append, h, hdot, hf]
  · right
    simp [fmtSeconds, String.length_append, h, hdot, hf]

/-- `fmtSeconds05` renders between 4 and 6 characters. -/
theorem fmtSeconds05_length (c : Int) :
    4 ≤ (fmtSeconds05 c).length ∧ (fmtSeconds05 c).length ≤ 6 := by
  unfold fmtSeconds05
  have hz : ("0" : String).length = 1 := rfl
  rcases fmtSeconds_length c with h | h <;> split_ifs <;>
    simp [String.length_append, h, hz]

/-- A string of the wrong length cannot be `"NT"`. -/
theorem ne_NT_of_length {s : String} (h : s.length ≠ 2) : s ≠ "NT" :=
  fun hs => h (hs ▸ rfl)

/-- C10: for every negative `timeInt`, `format_time` neither raises nor
returns `"NT"`: the floor quotient `timeInt div 6000` is at most -1, so
the minutes branch is not taken and the nonnegative floor remainder is
rendered as plain seconds — `format_time (-100) = "59.00"`; `"NT"` is
returned only for zero or absent input. -/
theorem format_time_negative_c10 :
    (∀ t : Int, t < 0 →
        format_time (some t) = fmtSeconds (t % 6000) ∧ t / 6000 ≤ -1) ∧
    format_time (some (-100)) = "59.00" ∧
    (∀ t : Int, t ≠ 0 → format_time (some t) ≠ "NT") := by
  refine ⟨?_, by decide, ?_⟩
  · intro t ht
    have h0 : ¬t = 0 := by omega
    have hng : ¬t / 6000 > 0 := by omega
    exact ⟨by simp only [format_time, if_neg h0, if_neg hng], by omega⟩
  · intro t h0
    by_cases hm : t / 6000 > 0
    · have hrw : format_time (some t) =
          minutesStr (t / 6000) ++ ":" ++ fmtSeconds05 (t % 6000) := by
        simp only [format_time, if_neg h0, if_pos hm]
      rw [hrw]
      apply ne_NT_of_length
      have h05 := fmtSeconds05_length (t % 6000)
      have hcolon : (":" : String).length = 1 := rfl
      simp only [String.length_append, hcolon]
      omega
    · have hrw : format_time (some t) = fmtSeconds (t % 6000) := by
        simp only [format_time, if_neg h0, if_neg hm]
      rw [hrw]
      apply ne_NT_of_length
      rcases fmtSeconds_length (t % 6000) with h | h <;> omega

/-- C10 witness: the negative clause of `format_time_negative_c10` at
`timeInt = -100` and the no-`"NT"` clause at `timeInt = -5`. -/
theorem format_time_negative_c10_witness :
    ((-100 : Int) < 0 ∧
      (format_time (some (-100)) = fmtSeconds ((-100 : Int) % 6000) ∧
       (-100 : Int) / 6000 ≤ -1)) ∧
    ((-5 : Int) ≠ 0 ∧ format_time (some (-5)) ≠ "NT") :=
  ⟨⟨by decide, format_time_negative_c10.1 (-100) (by decide)⟩,
   ⟨by decide, format_time_negative_c10.2.2 (-5) (by decide)⟩⟩


/-- Ids of the deduplicated list are distinct and avoid `seen`. -/
theorem dedupById_nodup_ids :
    ∀ (evs : List EventRes) (seen : List String),
      ((dedupById seen evs).map EventRes.id).Nodup ∧
      ∀ e ∈ dedupById seen evs, e.id ∉ seen := by
  intro evs
  induction evs with
  | nil => intro seen; simp [dedupById]
  | cons e es ih =>
    intro seen
    by_cases hmem : e.id ∈ seen
    · rw [show dedupById seen (e :: es) = dedupById seen es from by
        simp [dedupById, hmem]]
      exact ih seen
    · rw [show dedupById seen (e :: es) = e :: dedupById (e.id :: seen) es from by
        simp [dedupById, hmem]]
      obtain ⟨hnd, hnin⟩ := ih (e.id :: seen)
      refine ⟨?_, ?_⟩
      · simp only [List.map_cons, List.nodup_cons]
        refine ⟨?_, hnd⟩
        intro hcontra
        obtain ⟨e', he', heq⟩ := List.mem_map.mp hcontra
        exact hnin e' he' (heq ▸ List.mem_cons_self _ _)
      · intro e' he'
        rcases List.mem_cons.mp he' with rfl | h'
        · exact hmem
        · exact fun hc => hnin e' h' (List.mem_cons_of_mem _ hc)

/-- C2 counterexample: with event numbers 3, 1, `"bad"`, 2 the sort key
`int("bad")` raises `ValueError`, so `load_all_events` raises instead
of sorting the `"bad"` event as 999. -/
theorem load_all_events_c2_counterexample :
    load_all_events [evN3, evN1, evBad, evN2] = none := by decide

/-- C2 amended: when every deduplicated event has a parseable
`eventNumber` (missing ones default to `"999"`), `load_all_events`
returns the first-seen-deduplicated events sorted ascending by the
parsed key; an event with a non-numeric `eventNumber` string makes it
raise `ValueError` instead. -/
theorem load_all_events_c2_amended (evs : List EventRes)
    (h : ∀ e ∈ dedupById [] evs, (eventKey e).isSome = true) :
    ∃ l, load_all_events evs = some l ∧ List.Sorted eventLE l ∧
      l.Perm (dedupById [] evs) ∧ (l.map EventRes.id).Nodup := by
  have hall : ((dedupById [] evs).all fun e => (eventKey e).isSome) = true :=
    List.all_eq_true.mpr h
  refine ⟨List.insertionSort eventLE (dedupById [] evs), ?_, ?_, ?_, ?_⟩
  · simp [load_all_events, hall]
  · exact List.sorted_insertionSort eventLE _
  · exact List.perm_insertionSort eventLE _
  · exact ((List.perm_insertionSort eventLE _).map EventRes.id).nodup_iff.mpr
      (dedupById_nodup_ids evs []).1

/-- C2 witness: `load_all_events_c2_amended` on events numbered 3, 1,
(missing), 2. -/
theorem load_all_events_c2_witness :
    (∀ e ∈ dedupById [] [evN3, evN1, evMissing, evN2],
        (eventKey e).isSome = true) ∧
    ∃ l, load_all_events [evN3, evN1, evMissing, evN2] = some l ∧
      List.Sorted eventLE l ∧
      l.Perm (dedupById [] [evN3, evN1, evMissing, evN2]) ∧
      (l.map EventRes.id).Nodup :=
  ⟨by decide, load_all_events_c2_amended _ (by decide)⟩


/-- A key present after `insertGrp` was present before or is the
inserted key. -/
theorem mem_insertGrp_map_fst {gs : List (Option Int × List HeatRec)}
    {k k' : Option Int} {r : HeatRec}
    (h : k' ∈ (insertGrp gs k r).map Prod.fst) :
    k' ∈ gs.map Prod.fst ∨ k' = k := by
  induction gs with
  | nil =>
    simp [insertGrp] at h
    exact Or.inr h
  | cons p rest ih =>
    obtain ⟨k₀, rs₀⟩ := p
    by_cases hk : k₀ = k
    · subst hk
      rw [show insertGrp ((k₀, rs₀) :: rest) k₀ r = (k₀, rs₀ ++ [r]) :: rest from by
        simp [insertGrp]] at h
      exact Or.inl (by simpa using h)
    · simp only [insertGrp, if_neg hk, List.map_cons, List.mem_cons] at h
      rcases h with rfl | h
      · exact Or.inl (by simp)
      · rcases ih h with h' | h'
        · exact Or.inl (List.mem_cons_of_mem _ h')
        · exact Or.inr h'

/-- `insertGrp` keeps the bucket keys distinct. -/
theorem nodup_insertGrp_map_fst {gs : List (Option Int × List HeatRec)}
    {k : Option Int} {r : HeatRec} (h : (gs.map Prod.fst).Nodup) :
    ((insertGrp gs k r).map Prod.fst).Nodup := by
  induction gs with
  | nil => simp [insertGrp]
  | cons p rest ih =>
    obtain ⟨k₀, rs₀⟩ := p
    simp only [List.map_cons, List.nodup_cons] at h
    obtain ⟨hk₀, hrest⟩ := h
    by_cases hk : k₀ = k
    · subst hk
      rw [show insertGrp ((k₀, rs₀) :: rest) k₀ r = (k₀, rs₀ ++ [r]) :: rest from by
        simp [insertGrp]]
      simp only [List.map_cons, List.nodup_cons]
      exact ⟨hk₀, hrest⟩
    · simp only [insertGrp, if_neg hk, List.map_cons, List.nodup_cons]
      refine ⟨?_, ih hrest⟩
      intro hc
      rcases mem_insertGrp_map_fst hc with h' | h'
      · exact hk₀ h'
      · exact hk h'

/-- The bucket keys of `groupByHeat` are distinct. -/
theorem groupByHeat_keys_nodup (rs : List HeatRec) :
    ((groupByHeat rs).map Prod.fst).Nodup := by
  suffices h : ∀ gs : List (Option Int × List HeatRec), (gs.map Prod.fst).Nodup →
      ((rs.foldl (fun gs r => insertGrp gs r.heatNumber r) gs).map Prod.fst).Nodup by
    exact h [] (by simp)
  induction rs with
  | nil => intro gs h; simpa using h
  | cons r rest ih =>
    intro gs h
    rw [List.foldl_cons]
    exact ih _ (nodup_insertGrp_map_fst h)

/-- Every bucket key of `groupByHeat` is some record's `heatNumber`. -/
theorem groupByHeat_keys_from (rs : List HeatRec) :
    ∀ k ∈ (groupByHeat rs).map Prod.fst, ∃ r ∈ rs, r.heatNumber = k := by
  suffices h : ∀ (gs : List (Option Int × List HeatRec)) (k : Option Int),
      k ∈ (rs.foldl (fun gs r => insertGrp gs r.heatNumber r) gs).map Prod.fst →
      k ∈ gs.map Prod.fst ∨ ∃ r ∈ rs, r.heatNumber = k by
    intro k hk
    exact (h [] k hk).resolve_left (by simp)
  induction rs with
  | nil =>
    intro gs k h
    exact Or.inl (by simpa using h)
  | cons r rest ih =>
    intro gs k h
    rw [List.foldl_cons] at h
    rcases ih _ k h with h' | h'
    · rcases mem_insertGrp_map_fst h' with h'' | h''
      · exact Or.inl h''
      · exact Or.inr ⟨r, by simp, h''.symm⟩
    · obtain ⟨r', hr', he⟩ := h'
      exact Or.inr ⟨r', by simp [hr'], he⟩

/-- A duplicate-free list whose members all equal `none` has at most
one element. -/
theorem length_le_one_of_nodup_all_none {l : List (Option Int)}
    (hnd : l.Nodup) (h : ∀ x ∈ l, x = none) : l.length ≤ 1 := by
  cases l with
  | nil => simp
  | cons a t =>
    cases t with
    | nil => simp
    | cons b t2 =>
      exfalso
      have ha := h a (by simp)
      have hb := h b (by simp)
      rw [ha, hb] at hnd
      simp at hnd

/-- Folding records that all lack a `heatNumber` onto the single
`none` bucket just extends that bucket. -/
theorem groupByHeat_all_none_aux (rest : List HeatRec) :
    ∀ acc : List HeatRec, (∀ r ∈ rest, r.heatNumber = none) →
      rest.foldl (fun gs r => insertGrp gs r.heatNumber r) [(none, acc)] =
        [(none, acc ++ rest)] := by
  induction rest with
  | nil => intro acc _; simp
  | cons r t ih =>
    intro acc h
    rw [List.foldl_cons]
    have hr : r.heatNumber = none := h r (by simp)
    have hstep : insertGrp [(none, acc)] r.heatNumber r = [(none, acc ++ [r])] := by
      rw [hr]; simp [insertGrp]
    rw [hstep, ih (acc ++ [r]) (fun r' hr' => h r' (by simp [hr']))]
    simp

/-- C8 counterexample: one record in heat 2 and one with no
`heatNumber` group fine (the absent one under the `None` bucket), but
`sorted()` over the mixed key list `[2, None]` raises `TypeError`, so
the per-heat listing fails instead of succeeding. -/
theorem heat_listing_c8_counterexample :
    heat_listing [hrA, hrNoHeatA] = none ∧
    groupByHeat [hrA, hrNoHeatA] = [(some 2, [hrA]), (none, [hrNoHeatA])] := by
  refine ⟨?_, ?_⟩ <;> decide

/-- C8 amended: records lacking `heatNumber` are grouped under the
`None` bucket, and the per-heat listing succeeds whenever the records'
heat numbers are uniformly present or uniformly absent; mixing numeric
and absent heat numbers within one event makes the key sort raise
`TypeError`. -/
theorem heat_listing_c8_amended (rs : List HeatRec)
    (h : (∀ r ∈ rs, (r.heatNumber).isSome = true) ∨
         (∀ r ∈ rs, r.heatNumber = none)) :
    (heat_listing rs).isSome = true ∧
    ((∀ r ∈ rs, r.heatNumber = none) → rs ≠ [] →
      groupByHeat rs = [(none, rs)]) := by
  constructor
  · have hkeys := groupByHeat_keys_from rs
    have hsorted : (pySortedHeatKeys ((groupByHeat rs).map Prod.fst)).isSome = true := by
      rcases h with hall | hnone
      · have hnn : ((groupByHeat rs).map Prod.fst).any Option.isNone = false := by
          rw [List.any_eq_false]
          intro k hk
          obtain ⟨r, hr, he⟩ := hkeys k hk
          have hs := hall r hr
          rw [he] at hs
          cases k with
          | none => simp at hs
          | some v => simp
        unfold pySortedHeatKeys
        split_ifs with h1 h2
        · rfl
        · rw [hnn] at h2; cases h2
        · rfl
      · have hlen : ((groupByHeat rs).map Prod.fst).length ≤ 1 :=
          length_le_one_of_nodup_all_none (groupByHeat_keys_nodup rs)
            (fun k hk => by
              obtain ⟨r, hr, he⟩ := hkeys k hk
              rw [← he]
              exact hnone r hr)
        unfold pySortedHeatKeys
        rw [if_pos hlen]
        rfl
    rcases hx : pySortedHeatKeys ((groupByHeat rs).map Prod.fst) with _ | ks
    · rw [hx] at hsorted; cases hsorted
    · simp [heat_listing, hx]
  · intro hnone hne
    cases rs with
    | nil => cases hne rfl
    | cons r t =>
      have hr : r.heatNumber = none := hnone r (by simp)
      have hstep : insertGrp [] r.heatNumber r = [(none, [r])] := by
        rw [hr]; simp [insertGrp]
      unfold groupByHeat
      rw [List.foldl_cons, hstep,
        groupByHeat_all_none_aux t [r] (fun r' hr' => hnone r' (by simp [hr']))]
      simp

/-- C8 witness: `heat_listing_c8_amended` on two records that both lack
a `heatNumber` (all hypotheses discharged concretely). -/
theorem heat_listing_c8_witness :
    ((∀ r ∈ [hrNoHeatA, hrNoHeatB], (r.heatNumber).isSome = true) ∨
      (∀ r ∈ [hrNoHeatA, hrNoHeatB], r.heatNumber = none)) ∧
    (heat_listing [hrNoHeatA, hrNoHeatB]).isSome = true ∧
    groupByHeat [hrNoHeatA, hrNoHeatB] = [(none, [hrNoHeatA, hrNoHeatB])] :=
  ⟨Or.inr (by decide),
   (heat_listing_c8_amended [hrNoHeatA, hrNoHeatB] (Or.inr (by decide))).1,
   (heat_listing_c8_amended [hrNoHeatA, hrNoHeatB] (Or.inr (by decide))).2
     (by decide) (by decide)⟩


/-- A nonempty list whose members all equal `t` dedups to `[t]`. -/
theorem dedup_all_eq {l : List String} {t : String} (hne : l ≠ [])
    (h : ∀ a ∈ l, a = t) : l.dedup = [t] := by
  induction l with
  | nil => cases hne rfl
  | cons a rest ih =>
    have ha : a = t := h a (by simp)
    subst ha
    by_cases hr : rest = []
    · subst hr; simp
    · have hall : ∀ b ∈ rest, b = a := fun b hb => h b (by simp [hb])
      have hmem : a ∈ rest := by
        cases rest with
        | nil => exact absurd rfl hr
        | cons c cs =>
          have hc : c = a := hall c (by simp)
          simp [← hc]
      rw [List.dedup_cons_of_mem hmem]
      exact ih hr hall

/-- `inferFirst n` is `infer_type` mapped over the first `n` elements. -/
theorem inferFirst_eq_map_take :
    ∀ (n : Nat) (xs : List PyVal),
      inferFirst n xs = (xs.take n).map infer_type := by
  intro n
  induction n with
  | zero => intro xs; simp [inferFirst]
  | succ k ih =>
    intro xs
    cases xs with
    | nil => simp [inferFirst]
    | cons x rest => simp [inferFirst, ih]

/-- One-step unfolding of `infer_type` on a nonempty list. -/
theorem infer_type_list_cons (x : PyVal) (xs : List PyVal) :
    infer_type (.pyList (x :: xs)) =
      match (inferFirst 3 (x :: xs)).dedup with
      | [t] => "array<" ++ t ++ ">"
      | _ => "array" := rfl

/-- C6: `infer_type` classifies the spec's examples as stated, and on
every non-empty list it inspects only the first 3 elements, yielding
`array<T>` exactly when their inferred types all coincide and plain
`array` otherwise. -/
theorem infer_type_c6 :
    infer_type (.pyStr "2024-05-01") = "date" ∧
    infer_type (.pyStr "2024-05-01T10:00:00Z") = "datetime" ∧
    infer_type (.pyStr "https://x.test") = "url" ∧
    infer_type (.pyList [.pyInt 1, .pyInt 2, .pyInt 3]) = "array<integer>" ∧
    infer_type (.pyList [.pyInt 1, .pyStr "a"]) = "array" ∧
    infer_type (.pyList []) = "array" ∧
    (∀ xs ys : List PyVal, xs ≠ [] → ys ≠ [] → xs.take 3 = ys.take 3 →
        infer_type (.pyList xs) = infer_type (.pyList ys)) ∧
    (∀ (x : PyVal) (xs : List PyVal),
        (∀ y ∈ (x :: xs).take 3, infer_type y = infer_type x) →
        infer_type (.pyList (x :: xs)) = "array<" ++ infer_type x ++ ">") ∧
    (∀ (x : PyVal) (xs : List PyVal),
        (∃ y ∈ (x :: xs).take 3, infer_type y ≠ infer_type x) →
        infer_type (.pyList (x :: xs)) = "array") := by
  refine ⟨by decide, by decide, by decide, by decide, by decide, by decide,
    ?_, ?_, ?_⟩
  · intro xs ys hxs hys htake
    cases xs with
    | nil => cases hxs rfl
    | cons a as =>
      cases ys with
      | nil => cases hys rfl
      | cons b bs =>
        rw [infer_type_list_cons, infer_type_list_cons,
          inferFirst_eq_map_take, inferFirst_eq_map_take, htake]
  · intro x xs h
    have hxmem : infer_type x ∈ inferFirst 3 (x :: xs) := by
      rw [inferFirst_eq_map_take]
      exact List.mem_map_of_mem _ (by simp)
    have hne : inferFirst 3 (x :: xs) ≠ [] := fun hc => by
      rw [hc] at hxmem
      cases hxmem
    have hall : ∀ a ∈ inferFirst 3 (x :: xs), a = infer_type x := by
      rw [inferFirst_eq_map_take]
      intro a ha
      obtain ⟨y, hy, rfl⟩ := List.mem_map.mp ha
      exact h y hy
    rw [infer_type_list_cons, dedup_all_eq hne hall]
  · intro x xs h
    obtain ⟨y, hy, hne⟩ := h
    have hxmem : infer_type x ∈ inferFirst 3 (x :: xs) := by
      rw [inferFirst_eq_map_take]
      exact List.mem_map_of_mem _ (by simp)
    have hymem : infer_type y ∈ inferFirst 3 (x :: xs) := by
      rw [inferFirst_eq_map_take]
      exact List.mem_map_of_mem _ hy
    rw [infer_type_list_cons]
    rcases hd : (inferFirst 3 (x :: xs)).dedup with _ | ⟨t, _ | ⟨t2, ts2⟩⟩
    · exact absurd (hd ▸ List.mem_dedup.mpr hxmem) (List.not_mem_nil _)
    · have hxt : infer_type x = t := by
        have hx' := List.mem_dedup.mpr hxmem
        rw [hd] at hx'
        simpa using hx'
      have hyt : infer_type y = t := by
        have hy' := List.mem_dedup.mpr hymem
        rw [hd] at hy'
        simpa using hy'
      exact absurd (hyt.trans hxt.symm) hne
    · rfl

/-- C6 witness: the general clauses of `infer_type_c6` at concrete
lists — a 4th element is ignored, an all-integer pair gives
`array<integer>`, a mixed pair gives `array`. -/
theorem infer_type_c6_witness :
    infer_type (.pyList [.pyInt 1, .pyInt 2, .pyInt 3, .pyStr "zzz"]) =
      infer_type (.pyList [.pyInt 1, .pyInt 2, .pyInt 3]) ∧
    infer_type (.pyList [.pyInt 5, .pyInt 6]) =
      "array<" ++ infer_type (.pyInt 5) ++ ">" ∧
    infer_type (.pyList [.pyInt 5, .pyStr "w"]) = "array" :=
  ⟨infer_type_c6.2.2.2.2.2.2.1 _ _ (by simp) (by simp) rfl,
   infer_type_c6.2.2.2.2.2.2.2.1 (.pyInt 5) [.pyInt 6] (by decide),
   infer_type_c6.2.2.2.2.2.2.2.2 (.pyInt 5) [.pyStr "w"]
     ⟨.pyStr "w", by simp, by decide⟩⟩

end Swimtopia
